import Mathlib

/-!
Shallow embedding of the `elevenlabs-monday-integration` repository
(`src/server.js`, `src/services/monday.js`, `src/services/elevenlabs.js`).

JavaScript values that flow through the relevant code paths are modelled
explicitly: a CRM column value is either a plain string, a structured
object carrying optional `text` / `value` string fields, or null.
JavaScript truthiness of a string is "non-empty"; of an object, always
true; of null/undefined, false.  Optional fields are `Option String`
with `none` standing for null/undefined.  `Date.now()` is modelled by an
explicit `now : Nat` argument; every network interaction (the Monday CRM
fetch and the ElevenLabs outbound call) is modelled by an explicit
outcome argument describing what the network returned.
-/

set_option autoImplicit false

namespace MondayEleven

/-- Truthiness of a JS string-or-null value: present and non-empty. -/
def optTruthy : Option String → Bool
  | some s => !(s == "")
  | none => false

/-- Normalize a JS string-or-null value to its truthy content: `x || null`. -/
def jnorm (o : Option String) : Option String :=
  if optTruthy o then o else none

/-- JS `a || b` on string-or-null values. -/
def jor (a b : Option String) : Option String :=
  if optTruthy a then a else b

/-- JS `a || d` where `d` is a plain (string) default. -/
def jget (a : Option String) (d : String) : String :=
  match jnorm a with
  | some s => s
  | none => d

/-- JS `a || d` on a plain string `a` with default `d`. -/
def strOr (a d : String) : String :=
  if a == "" then d else a

/-- `startsWithList pat l` is true when `pat` is an initial segment of `l`. -/
def startsWithList : List Char → List Char → Bool
  | [], _ => true
  | _ :: _, [] => false
  | a :: pat, b :: l => a == b && startsWithList pat l

/-- `hasSubList pat l`: `pat` occurs contiguously somewhere inside `l`. -/
def hasSubList (pat : List Char) : List Char → Bool
  | [] => startsWithList pat []
  | a :: l => startsWithList pat (a :: l) || hasSubList pat l

/-- JS `String.prototype.includes`: substring occurrence test. -/
def containsSub (pat s : String) : Bool :=
  hasSubList pat.data s.data

/-- ASCII lowercase of one character (the column identifiers compared by
`toLowerCase().includes(...)` are ASCII). -/
def charLower (c : Char) : Char :=
  if 'A' ≤ c && c ≤ 'Z' then Char.ofNat (c.toNat + 32) else c

/-- `columnId.toLowerCase()` on ASCII identifiers. -/
def lowerString (s : String) : String :=
  ⟨s.data.map charLower⟩

/-- One CRM column value as delivered inside a webhook payload. -/
inductive ColumnValue where
  | str (s : String)
  | obj (text : Option String) (value : Option String)
  | nullv
  deriving DecidableEq, Repr

/-- JS truthiness of a column value. -/
def cvTruthy : ColumnValue → Bool
  | .str s => !(s == "")
  | .obj _ _ => true
  | .nullv => false

/-- Coercion used by `extractPhone` / `extractEmail`: a plain string is used
as-is, otherwise the truthy `.text` field, else the truthy `.value` field,
else the empty string (`let phone = ''` stays). -/
def coerceToString : ColumnValue → String
  | .str s => s
  | .obj t v =>
    match jnorm t with
    | some s => s
    | none =>
      match jnorm v with
      | some s => s
      | none => ""
  | .nullv => ""

/-- The value stored into `leadData.company` by
`columnValue.text || columnValue.value || columnValue`: either a string or
the raw column value object itself. -/
inductive CVal where
  | s (x : String)
  | raw (v : ColumnValue)
  deriving DecidableEq, Repr

/-- JS truthiness of a `CVal`. -/
def cvalTruthy : CVal → Bool
  | .s x => !(x == "")
  | .raw v => cvTruthy v

/-- `columnValue.text || columnValue.value || columnValue`
(src/services/monday.js line 185). -/
def coerceCompany : ColumnValue → CVal
  | .str s => CVal.s s
  | .obj t v =>
    match jnorm t with
    | some s => CVal.s s
    | none =>
      match jnorm v with
      | some s => CVal.s s
      | none => CVal.raw (.obj t v)
  | .nullv => CVal.raw .nullv

/-- `MondayService.isPhoneColumn` (src/services/monday.js lines 209-214). -/
def isPhoneColumn (columnId : String) : Bool :=
  ["phone", "telefone", "tel", "celular", "mobile"].any
    (fun keyword => containsSub keyword (lowerString columnId))

/-- `MondayService.isEmailColumn` (src/services/monday.js lines 221-226). -/
def isEmailColumn (columnId : String) : Bool :=
  ["email", "mail", "e-mail"].any
    (fun keyword => containsSub keyword (lowerString columnId))

/-- `MondayService.isCompanyColumn` (src/services/monday.js lines 233-238). -/
def isCompanyColumn (columnId : String) : Bool :=
  ["company", "empresa", "business", "organization"].any
    (fun keyword => containsSub keyword (lowerString columnId))

/-- `phone.replace(/[^\d+]/g, '')`: keep digits and every plus sign. -/
def stripPhone (s : String) : String :=
  ⟨s.data.filter (fun c => c.isDigit || c == '+')⟩

/-- `MondayService.extractPhone` (src/services/monday.js lines 245-278);
`phone.startsWith('+')` is the list-level prefix test. -/
def extractPhone (phoneData : ColumnValue) : Option String :=
  let phone := stripPhone (coerceToString phoneData)
  let phone :=
    if phone.length == 11 && !(startsWithList ['+'] phone.data) then "+55" ++ phone
    else if phone.length == 10 && !(startsWithList ['+'] phone.data) then "+55" ++ phone
    else phone
  if 10 ≤ phone.length then some phone else none

/-- Whitespace class of the JS regex `\s` (the characters relevant here;
shared by the code-side test and the spec-side predicate). -/
def isJsWs (c : Char) : Bool :=
  c == ' ' || c == '\t' || c == '\n' || c == '\r' ||
  c.val == 0x0b || c.val == 0x0c || c.val == 0xa0 || c.val == 0x1680 ||
  (0x2000 ≤ c.val && c.val ≤ 0x200a) ||
  c.val == 0x2028 || c.val == 0x2029 || c.val == 0x202f || c.val == 0x205f ||
  c.val == 0x3000 || c.val == 0xfeff

/-- A character admitted by the regex class `[^\s@]`. -/
def okChar (c : Char) : Bool :=
  !(isJsWs c) && !(c == '@')

/-- Helper for the `\.`-split of the regex: the list has a `'.'` at some
position that is not its last position. -/
def hasDotNotLast : List Char → Bool
  | [] => false
  | [_] => false
  | c :: x :: xs => c == '.' || hasDotNotLast (x :: xs)

/-- The part after `'@'` matches `[^\s@]+\.[^\s@]+` (character-class
membership is checked separately): a dot with at least one character on
each side. -/
def dotSplit : List Char → Bool
  | [] => false
  | _ :: t => hasDotNotLast t

/-- The anchored regex `^[^\s@]+@[^\s@]+\.[^\s@]+$` from
`MondayService.extractEmail` (src/services/monday.js line 298), as a
deterministic test: since `[^\s@]` excludes `'@'`, a match splits the
string at its unique `'@'`. -/
def emailRegexTest (s : String) : Bool :=
  let l := s.data.takeWhile (fun c => !(c == '@'))
  match s.data.dropWhile (fun c => !(c == '@')) with
  | [] => false
  | _ :: r =>
    !(l == []) && l.all okChar && r.all okChar && dotSplit r

/-- `MondayService.extractEmail` (src/services/monday.js lines 285-309). -/
def extractEmail (emailData : ColumnValue) : Option String :=
  let email := coerceToString emailData
  if emailRegexTest email then some email else none

/-- One entry of `column_values` in the Monday GraphQL response. -/
structure RawColumn where
  id : String
  text : Option String
  value : Option String
  deriving DecidableEq, Repr

/-- One item of the Monday GraphQL response. -/
structure RawItem where
  id : String
  name : String
  column_values : List RawColumn
  deriving DecidableEq, Repr

/-- Outcome of the axios request inside `fetchItemDetails`: either the
request/response pipeline threw (caught at src/services/monday.js lines
99-102), or it delivered a list of items (missing `data.data.items`
behaves like the empty list: both return null). -/
inductive FetchOutcome where
  | apiError
  | ok (items : List RawItem)
  deriving DecidableEq, Repr

/-- The processed item data built by `fetchItemDetails`
(src/services/monday.js lines 62-69). -/
structure ItemData where
  id : String
  name : String
  phone : Option String
  email : Option String
  company : Option String
  columns : List (String × Option String)
  deriving DecidableEq, Repr

/-- JS object property read on the `columns` map: the last assignment to a
key wins. -/
def lookupCol (cols : List (String × Option String)) (k : String) : Option String :=
  match cols.reverse.find? (fun e => e.1 == k) with
  | some e => e.2
  | none => none

/-- The `forEach` body over `column_values` (src/services/monday.js lines
73-93): record the column text-or-value, then fill phone/email/company
from columns whose identifier matches and whose `text` is truthy. -/
def applyFetchColumn (d : ItemData) (c : RawColumn) : ItemData :=
  let d := { d with
    columns := d.columns ++ [(c.id, if optTruthy c.text then c.text else c.value)] }
  let d := if isPhoneColumn c.id && optTruthy c.text then
      { d with phone := extractPhone (.str (c.text.getD "")) } else d
  let d := if isEmailColumn c.id && optTruthy c.text then
      { d with email := c.text } else d
  if isCompanyColumn c.id && optTruthy c.text then
    { d with company := c.text } else d

/-- `MondayService.fetchItemDetails` (src/services/monday.js lines 25-103),
with the network outcome passed in explicitly. -/
def fetchItemDetails : FetchOutcome → Option ItemData
  | .apiError => none
  | .ok [] => none
  | .ok (item :: _) =>
    some (item.column_values.foldl applyFetchColumn
      { id := item.id, name := item.name, phone := none, email := none,
        company := none, columns := [] })

/-- The nested `event.data` object of a webhook payload. -/
structure EventData where
  pulse_id : Option String
  board_id : Option String
  column_id : Option String
  value : Option ColumnValue
  deriving DecidableEq, Repr

/-- The `event` object of a webhook payload. -/
structure Event where
  type : Option String
  data : Option EventData
  pulseId : Option String
  boardId : Option String
  columnId : Option String
  value : Option ColumnValue
  pulseName : Option String
  deriving DecidableEq, Repr

/-- A webhook request body as destructured by `processWebhook`
(src/services/monday.js line 115) and the challenge check in
`src/server.js` line 38.  Item/board identifiers are modelled as strings. -/
structure Payload where
  challenge : Option String
  event : Option Event
  pulseName : Option String
  pulseId : Option String
  boardId : Option String
  columnValues : Option (List (String × ColumnValue))
  deriving DecidableEq, Repr

/-- JS `a || b` on optional column values. -/
def jorCV (a b : Option ColumnValue) : Option ColumnValue :=
  match a with
  | some v => if cvTruthy v then a else b
  | none => b

/-- The lead record built by `processWebhook`
(src/services/monday.js lines 153-166). -/
structure LeadData where
  id : String
  name : String
  boardId : Option String
  phone : Option String
  email : Option String
  company : Option CVal
  source : String
  createdAt : Nat
  eventType : Option String
  columnId : Option String
  columnValue : Option ColumnValue
  mcpData : Option ItemData
  deriving DecidableEq, Repr

/-- `const isCreateEvent = ...; const isChangeEvent = ...`
(src/services/monday.js lines 137-138). -/
def acceptedType (t : Option String) : Bool :=
  t == some "create_pulse" || t == some "change_column_value" ||
  t == some "update_column_value"

/-- The body of the `Object.keys(columnValues).forEach` loop
(src/services/monday.js lines 170-187): three independent checks, each
overwriting its lead field when the column identifier matches and the
column value is truthy. -/
def applyColumn (lead : LeadData) (e : String × ColumnValue) : LeadData :=
  let lead := if isPhoneColumn e.1 && cvTruthy e.2 then
      { lead with phone := extractPhone e.2 } else lead
  let lead := if isEmailColumn e.1 && cvTruthy e.2 then
      { lead with email := extractEmail e.2 } else lead
  if isCompanyColumn e.1 && cvTruthy e.2 then
    { lead with company := some (coerceCompany e.2) } else lead

/-- The lead record as seeded from the webhook fields and the fetch result
(src/services/monday.js lines 153-166), before the column loop. -/
def seedLead (p : Payload) (fr : FetchOutcome) (now : Nat) : LeadData :=
  let eventType := p.event.bind Event.type
  let eventData := p.event.bind Event.data
  let itemId := jor (eventData.bind EventData.pulse_id)
    (jor (p.event.bind Event.pulseId) p.pulseId)
  let boardIdFromEvent := jor (eventData.bind EventData.board_id)
    (jor (p.event.bind Event.boardId) p.boardId)
  let columnId := jor (eventData.bind EventData.column_id) (p.event.bind Event.columnId)
  let columnValue := jorCV (eventData.bind EventData.value) (p.event.bind Event.value)
  let itemName := jor (p.event.bind Event.pulseName) p.pulseName
  let itemDetails := fetchItemDetails fr
  { id := jget itemId ("lead-" ++ toString now)
    name := jget (jor itemName (itemDetails.map ItemData.name)) "Lead without name"
    boardId := boardIdFromEvent
    phone := jnorm (itemDetails.bind ItemData.phone)
    email := jnorm (itemDetails.bind ItemData.email)
    company := (jnorm (itemDetails.bind ItemData.company)).map CVal.s
    source := "monday.com"
    createdAt := now
    eventType := eventType
    columnId := columnId
    columnValue := columnValue
    mcpData := itemDetails }

/-- `MondayService.processWebhook` (src/services/monday.js lines 110-202):
reject unrecognized event types, otherwise seed the lead record from the
webhook fields and the fetch result, then run the column loop on the
webhook's `columnValues` map when present. -/
def processWebhook (p : Payload) (fr : FetchOutcome) (now : Nat) : Option LeadData :=
  if acceptedType (p.event.bind Event.type) then
    let lead := seedLead p fr now
    some (match p.columnValues with
      | some cols => cols.foldl applyColumn lead
      | none => lead)
  else none

/-- ElevenLabs static configuration read from the environment
(src/services/elevenlabs.js lines 11-13 and 87). -/
structure ELConfig where
  apiKey : Option String
  agentId : Option String
  phoneNumberId : Option String
  deriving DecidableEq, Repr

/-- `!this.apiKey || !this.agentId` is false: both credentials truthy
(src/services/elevenlabs.js line 34). -/
def credsPresent (cfg : ELConfig) : Bool :=
  optTruthy cfg.apiKey && optTruthy cfg.agentId

/-- The `dynamic_variables` map sent to ElevenLabs. -/
structure DynVars where
  customer_name : String
  company_name : CVal
  deriving DecidableEq, Repr

/-- The request body built by `prepareCallData`
(src/services/elevenlabs.js lines 85-95). -/
structure CallRequest where
  agent_id : Option String
  agent_phone_number_id : String
  to_number : Option String
  dynamic_variables : DynVars
  deriving DecidableEq, Repr

/-- `leadData.mcpData?.columns?.lead_company`: the fetched CRM column
stored under the well-known key. -/
def mcpLeadCompany (lead : LeadData) : Option String :=
  match lead.mcpData with
  | some m => lookupCol m.columns "lead_company"
  | none => none

/-- `ElevenLabsService.prepareCallData` (src/services/elevenlabs.js lines
72-96). -/
def prepareCallData (cfg : ELConfig) (lead : LeadData) : CallRequest :=
  let customerName := strOr lead.name "Customer"
  let mcpCompany := jnorm (mcpLeadCompany lead)
  let companyName := match mcpCompany with
    | some s => CVal.s s
    | none =>
      match lead.company with
      | some c => if cvalTruthy c then c else CVal.s "your restaurant"
      | none => CVal.s "your restaurant"
  { agent_id := cfg.agentId
    agent_phone_number_id := jget cfg.phoneNumberId "default_phone_id"
    to_number := lead.phone
    dynamic_variables := { customer_name := customerName, company_name := companyName } }

/-- Outcome of `makeAPICall` (src/services/elevenlabs.js lines 137-171):
either a response body with its optional `call_id`, `id` and `status`
fields, or a thrown error carrying the already-wrapped message
`ElevenLabs API Error: ...`. -/
inductive ApiOutcome where
  | ok (call_id : Option String) (idField : Option String) (statusField : Option String)
  | fail (errMsg : String)
  deriving DecidableEq, Repr

/-- The object returned by `initiateCall` / `simulateCall`.  A real result
carries no `simulation` flag, modelled as `simulation := false`. -/
structure CallResult where
  success : Bool
  call_id : Option String
  status : String
  leadId : String
  phone : Option String
  timestamp : Nat
  simulation : Bool
  deriving DecidableEq, Repr

/-- `ElevenLabsService.simulateCall` (src/services/elevenlabs.js lines
178-194). -/
def simulateCall (lead : LeadData) (now : Nat) : CallResult :=
  { success := true
    call_id := some ("sim_" ++ toString now)
    status := "simulated"
    leadId := lead.id
    phone := lead.phone
    timestamp := now
    simulation := true }

/-- `ElevenLabsService.initiateCall` (src/services/elevenlabs.js lines
29-65): missing credentials throw `ElevenLabs credentials not configured`,
which the catch block turns into a simulated call; an API failure whose
wrapped message contains `not configured` is likewise simulated; any other
API failure is rethrown. -/
def initiateCall (cfg : ELConfig) (lead : LeadData) (api : ApiOutcome) (now : Nat) :
    Except String CallResult :=
  if !(credsPresent cfg) then
    .ok (simulateCall lead now)
  else
    match api with
    | .ok cid idField statusField =>
      .ok { success := true
            call_id := jor cid idField
            status := jget statusField "initiated"
            leadId := lead.id
            phone := lead.phone
            timestamp := now
            simulation := false }
    | .fail e =>
      if containsSub "not configured" e then .ok (simulateCall lead now)
      else .error e

/-- The JSON body of a response from `POST /webhook/monday`. -/
inductive RBody where
  | challengeEcho (c : String)
  | invalidData
  | noPhone
  | callStarted (leadId : String) (callId : Option String)
  | serverError (msg : String)
  deriving DecidableEq, Repr

/-- The observable outcome of one `POST /webhook/monday` request:
HTTP status, response body, and whether the outbound ElevenLabs API was
actually invoked (`makeAPICall` runs only when both credentials are
present). -/
structure RelayOutcome where
  status : Nat
  body : RBody
  providerCalled : Bool
  deriving DecidableEq, Repr

/-- The `POST /webhook/monday` handler (src/server.js lines 36-80):
challenge echo, then normalize; null lead gives a 400, a lead without a
truthy phone gives a 200 ignore message, otherwise the call is initiated
and its success or failure is translated to a 200 or 500. -/
def relay (cfg : ELConfig) (p : Payload) (fr : FetchOutcome) (api : ApiOutcome)
    (now : Nat) : RelayOutcome :=
  match jnorm p.challenge with
  | some c => { status := 200, body := .challengeEcho c, providerCalled := false }
  | none =>
    match processWebhook p fr now with
    | none => { status := 400, body := .invalidData, providerCalled := false }
    | some lead =>
      match jnorm lead.phone with
      | none => { status := 200, body := .noPhone, providerCalled := false }
      | some _ =>
        match initiateCall cfg lead api now with
        | .ok r =>
          { status := 200, body := .callStarted lead.id r.call_id,
            providerCalled := credsPresent cfg }
        | .error e =>
          { status := 500, body := .serverError e, providerCalled := credsPresent cfg }

/-! Characterization machinery for the column loop: the final value of each
lead field is the last matching webhook column's extraction when one
exists, else the seeded value. -/

/-- The column list the loop ranges over (`none` behaves as the empty map). -/
def colsOf (p : Payload) : List (String × ColumnValue) :=
  p.columnValues.getD []

/-- The last entry of the list on which `f` fires, if any. -/
def lastApp {β : Type} (f : String × ColumnValue → Option β) :
    List (String × ColumnValue) → Option β
  | [] => none
  | e :: rest =>
    match lastApp f rest with
    | some b => some b
    | none => f e

/-- What one loop iteration writes into `leadData.phone`, if anything. -/
def phoneApp (e : String × ColumnValue) : Option (Option String) :=
  if isPhoneColumn e.1 && cvTruthy e.2 then some (extractPhone e.2) else none

/-- What one loop iteration writes into `leadData.email`, if anything. -/
def emailApp (e : String × ColumnValue) : Option (Option String) :=
  if isEmailColumn e.1 && cvTruthy e.2 then some (extractEmail e.2) else none

/-- What one loop iteration writes into `leadData.company`, if anything. -/
def companyApp (e : String × ColumnValue) : Option (Option CVal) :=
  if isCompanyColumn e.1 && cvTruthy e.2 then some (some (coerceCompany e.2)) else none

theorem applyColumn_phone (lead : LeadData) (e : String × ColumnValue) :
    (applyColumn lead e).phone = (phoneApp e).getD lead.phone := by
  unfold applyColumn phoneApp
  cases h1 : isPhoneColumn e.1 && cvTruthy e.2 <;>
    cases h2 : isEmailColumn e.1 && cvTruthy e.2 <;>
      cases h3 : isCompanyColumn e.1 && cvTruthy e.2 <;>
        simp [h1, h2, h3]

theorem applyColumn_email (lead : LeadData) (e : String × ColumnValue) :
    (applyColumn lead e).email = (emailApp e).getD lead.email := by
  unfold applyColumn emailApp
  cases h1 : isPhoneColumn e.1 && cvTruthy e.2 <;>
    cases h2 : isEmailColumn e.1 && cvTruthy e.2 <;>
      cases h3 : isCompanyColumn e.1 && cvTruthy e.2 <;>
        simp [h1, h2, h3]

theorem applyColumn_company (lead : LeadData) (e : String × ColumnValue) :
    (applyColumn lead e).company = (companyApp e).getD lead.company := by
  unfold applyColumn companyApp
  cases h1 : isPhoneColumn e.1 && cvTruthy e.2 <;>
    cases h2 : isEmailColumn e.1 && cvTruthy e.2 <;>
      cases h3 : isCompanyColumn e.1 && cvTruthy e.2 <;>
        simp [h1, h2, h3]

theorem foldl_applyColumn_phone (cols : List (String × ColumnValue)) :
    ∀ lead : LeadData,
      (cols.foldl applyColumn lead).phone = (lastApp phoneApp cols).getD lead.phone := by
  induction cols with
  | nil => intro lead; rfl
  | cons e rest ih =>
    intro lead
    simp only [List.foldl_cons, ih, lastApp]
    cases h : lastApp phoneApp rest <;> simp [applyColumn_phone, h]

theorem foldl_applyColumn_email (cols : List (String × ColumnValue)) :
    ∀ lead : LeadData,
      (cols.foldl applyColumn lead).email = (lastApp emailApp cols).getD lead.email := by
  induction cols with
  | nil => intro lead; rfl
  | cons e rest ih =>
    intro lead
    simp only [List.foldl_cons, ih, lastApp]
    cases h : lastApp emailApp rest <;> simp [applyColumn_email, h]

theorem foldl_applyColumn_company (cols : List (String × ColumnValue)) :
    ∀ lead : LeadData,
      (cols.foldl applyColumn lead).company = (lastApp companyApp cols).getD lead.company := by
  induction cols with
  | nil => intro lead; rfl
  | cons e rest ih =>
    intro lead
    simp only [List.foldl_cons, ih, lastApp]
    cases h : lastApp companyApp rest <;> simp [applyColumn_company, h]

theorem processWebhook_accepted (p : Payload) (fr : FetchOutcome) (now : Nat)
    (h : acceptedType (p.event.bind Event.type) = true) :
    processWebhook p fr now = some ((colsOf p).foldl applyColumn (seedLead p fr now)) := by
  unfold processWebhook colsOf
  cases hc : p.columnValues <;> simp [h, hc]

theorem lastApp_append {β : Type} (f : String × ColumnValue → Option β)
    (xs : List (String × ColumnValue)) (e : String × ColumnValue) :
    lastApp f (xs ++ [e]) =
      match f e with
      | some b => some b
      | none => lastApp f xs := by
  induction xs with
  | nil => cases h : f e <;> simp [lastApp, h]
  | cons x xs ih =>
    simp only [List.cons_append, lastApp, List.append_eq]
    rw [ih]
    cases h : f e <;> cases h2 : lastApp f xs <;> simp [h, h2]

theorem seedLead_phone (p : Payload) (fr : FetchOutcome) (now : Nat) :
    (seedLead p fr now).phone = jnorm ((fetchItemDetails fr).bind ItemData.phone) := rfl

theorem seedLead_email (p : Payload) (fr : FetchOutcome) (now : Nat) :
    (seedLead p fr now).email = jnorm ((fetchItemDetails fr).bind ItemData.email) := rfl

theorem seedLead_company (p : Payload) (fr : FetchOutcome) (now : Nat) :
    (seedLead p fr now).company
      = (jnorm ((fetchItemDetails fr).bind ItemData.company)).map CVal.s := rfl

/-- Sample accepted event used by witnesses. -/
def wEvent : Event :=
  { type := some "create_pulse", data := none, pulseId := some "42",
    boardId := none, columnId := none, value := none, pulseName := some "Ana" }

/-- Sample accepted payload with one phone-keyword webhook column. -/
def wPayload : Payload :=
  { challenge := none, event := some wEvent, pulseName := none, pulseId := none,
    boardId := none, columnValues := some [("phone", .str "11999999999")] }

/-- Sample CRM fetch result carrying phone, email and company columns. -/
def wFetch : FetchOutcome :=
  .ok [{ id := "9", name := "Alice",
         column_values :=
           [{ id := "telefone", text := some "11 98888-7777", value := none },
            { id := "email", text := some "x@y.com", value := none },
            { id := "company", text := some "Padaria", value := none }] }]

/-- Claim C1: for every webhook event accepted by the Normalizer, the lead
record's phone, email and company fields are first seeded from the CRM
fetch result, and then any directly-matched webhook column values are
applied afterwards and take precedence over the fetched values: each field
equals the write of the last matching truthy webhook column when one
exists, and the fetched value otherwise. -/
theorem c1_seed_then_override (p : Payload) (fr : FetchOutcome) (now : Nat)
    (h : acceptedType (p.event.bind Event.type) = true) :
    ∃ r, processWebhook p fr now = some r ∧
      r.phone = (lastApp phoneApp (colsOf p)).getD
        (jnorm ((fetchItemDetails fr).bind ItemData.phone)) ∧
      r.email = (lastApp emailApp (colsOf p)).getD
        (jnorm ((fetchItemDetails fr).bind ItemData.email)) ∧
      r.company = (lastApp companyApp (colsOf p)).getD
        ((jnorm ((fetchItemDetails fr).bind ItemData.company)).map CVal.s) := by
  refine ⟨_, processWebhook_accepted p fr now h, ?_, ?_, ?_⟩
  · rw [foldl_applyColumn_phone, seedLead_phone]
  · rw [foldl_applyColumn_email, seedLead_email]
  · rw [foldl_applyColumn_company, seedLead_company]

/-- Witness for C1 at a concrete accepted payload and fetch result. -/
theorem c1_seed_then_override_witness :
    acceptedType (wPayload.event.bind Event.type) = true ∧
    (∃ r, processWebhook wPayload wFetch 3 = some r ∧
      r.phone = (lastApp phoneApp (colsOf wPayload)).getD
        (jnorm ((fetchItemDetails wFetch).bind ItemData.phone)) ∧
      r.email = (lastApp emailApp (colsOf wPayload)).getD
        (jnorm ((fetchItemDetails wFetch).bind ItemData.email)) ∧
      r.company = (lastApp companyApp (colsOf wPayload)).getD
        ((jnorm ((fetchItemDetails wFetch).bind ItemData.company)).map CVal.s)) :=
  ⟨by decide, c1_seed_then_override wPayload wFetch 3 (by decide)⟩

/-- Payload whose single webhook column identifier matches both the phone
and the email keyword sets, with a value accepted by both extractors. -/
def c2Payload : Payload :=
  { challenge := none, event := some wEvent, pulseName := none, pulseId := none,
    boardId := none,
    columnValues := some [("email_phone", .str "a1234567890@b.com")] }

/-- Claim C2 counterexample: "email_phone" matches the phone keyword set
(checked first) and also the email keyword set; with an empty fetch the one
column nevertheless sets both the phone and the email fields of the
resulting record (the last conjunct shows the email cannot have come from
the fetch), so a single column contributes to two roles, refuting the
claimed first-match exclusivity. -/
theorem c2_classification_counterexample :
    isPhoneColumn "email_phone" = true ∧ isEmailColumn "email_phone" = true ∧
    (processWebhook c2Payload (.ok []) 7).map LeadData.phone
      = some (some "+551234567890") ∧
    (processWebhook c2Payload (.ok []) 7).map LeadData.email
      = some (some "a1234567890@b.com") ∧
    (processWebhook { c2Payload with columnValues := none } (.ok []) 7).map
      LeadData.email = some none := by
  decide

/-- Claim C2 (amended): the role checks are independent rather than
exclusive: the identifier is tested against the phone, email and company
keyword sets in that fixed order, but each test fires on its own, so in a
single-column payload with a truthy value each lead field is overwritten
exactly when its own keyword set matches, and a column matching several
keyword sets contributes to every matching role. -/
theorem c2_classification_amended (p : Payload) (fr : FetchOutcome) (now : Nat)
    (cid : String) (v : ColumnValue)
    (hc : p.columnValues = some [(cid, v)])
    (h : acceptedType (p.event.bind Event.type) = true)
    (ht : cvTruthy v = true) :
    ∃ r, processWebhook p fr now = some r ∧
      r.phone = (if isPhoneColumn cid then extractPhone v
        else jnorm ((fetchItemDetails fr).bind ItemData.phone)) ∧
      r.email = (if isEmailColumn cid then extractEmail v
        else jnorm ((fetchItemDetails fr).bind ItemData.email)) ∧
      r.company = (if isCompanyColumn cid then some (coerceCompany v)
        else (jnorm ((fetchItemDetails fr).bind ItemData.company)).map CVal.s) := by
  refine ⟨_, processWebhook_accepted p fr now h, ?_, ?_, ?_⟩
  · rw [foldl_applyColumn_phone, seedLead_phone]
    unfold colsOf
    rw [hc]
    cases hp : isPhoneColumn cid <;> simp [lastApp, phoneApp, ht, hp]
  · rw [foldl_applyColumn_email, seedLead_email]
    unfold colsOf
    rw [hc]
    cases hp : isEmailColumn cid <;> simp [lastApp, emailApp, ht, hp]
  · rw [foldl_applyColumn_company, seedLead_company]
    unfold colsOf
    rw [hc]
    cases hp : isCompanyColumn cid <;> simp [lastApp, companyApp, ht, hp]

/-- Witness for the amended C2 at the concrete double-match payload. -/
theorem c2_classification_amended_witness :
    c2Payload.columnValues = some [("email_phone", .str "a1234567890@b.com")] ∧
    acceptedType (c2Payload.event.bind Event.type) = true ∧
    cvTruthy (.str "a1234567890@b.com") = true ∧
    (∃ r, processWebhook c2Payload (.ok []) 7 = some r ∧
      r.phone = (if isPhoneColumn "email_phone"
        then extractPhone (.str "a1234567890@b.com")
        else jnorm ((fetchItemDetails (.ok [])).bind ItemData.phone)) ∧
      r.email = (if isEmailColumn "email_phone"
        then extractEmail (.str "a1234567890@b.com")
        else jnorm ((fetchItemDetails (.ok [])).bind ItemData.email)) ∧
      r.company = (if isCompanyColumn "email_phone"
        then some (coerceCompany (.str "a1234567890@b.com"))
        else (jnorm ((fetchItemDetails (.ok [])).bind ItemData.company)).map CVal.s)) :=
  ⟨rfl, by decide, by decide,
    c2_classification_amended c2Payload (.ok []) 7 "email_phone"
      (.str "a1234567890@b.com") rfl (by decide) (by decide)⟩

/-- Claim C9: a truthy webhook column classified as phone (resp. email)
whose value fails extraction leaves the corresponding lead field absent
regardless of the fetch result: the webhook-side extraction overwrites the
fetched value unconditionally.  Stated for the column arriving last in the
webhook column map, whose write is the one that survives. -/
theorem c9_failed_extraction_overwrites (p : Payload) (fr : FetchOutcome) (now : Nat)
    (pre : List (String × ColumnValue)) (cid : String) (v : ColumnValue)
    (h : acceptedType (p.event.bind Event.type) = true)
    (ht : cvTruthy v = true) :
    (p.columnValues = some (pre ++ [(cid, v)]) → isPhoneColumn cid = true →
      extractPhone v = none →
      ∃ r, processWebhook p fr now = some r ∧ r.phone = none) ∧
    (p.columnValues = some (pre ++ [(cid, v)]) → isEmailColumn cid = true →
      extractEmail v = none →
      ∃ r, processWebhook p fr now = some r ∧ r.email = none) := by
  constructor
  · intro hc hp he
    refine ⟨_, processWebhook_accepted p fr now h, ?_⟩
    rw [foldl_applyColumn_phone]
    unfold colsOf
    rw [hc]
    simp only [Option.getD_some]
    rw [lastApp_append]
    simp [phoneApp, hp, ht, he]
  · intro hc hp he
    refine ⟨_, processWebhook_accepted p fr now h, ?_⟩
    rw [foldl_applyColumn_email]
    unfold colsOf
    rw [hc]
    simp only [Option.getD_some]
    rw [lastApp_append]
    simp [emailApp, hp, ht, he]

/-- Payload whose single webhook phone column holds a value that fails
phone extraction. -/
def c9Payload : Payload :=
  { challenge := none, event := some wEvent, pulseName := none, pulseId := none,
    boardId := none, columnValues := some [("phone", .str "123")] }

/-- Witness for C9: the fetch supplies a valid phone, the webhook phone
column's value extracts to absent, and the resulting record's phone is
absent. -/
theorem c9_failed_extraction_overwrites_witness :
    acceptedType (c9Payload.event.bind Event.type) = true ∧
    cvTruthy (.str "123") = true ∧
    isPhoneColumn "phone" = true ∧ extractPhone (.str "123") = none ∧
    jnorm ((fetchItemDetails wFetch).bind ItemData.phone) = some "+5511988887777" ∧
    (∃ r, processWebhook c9Payload wFetch 3 = some r ∧ r.phone = none) :=
  ⟨by decide, by decide, by decide, by decide, by decide,
    (c9_failed_extraction_overwrites c9Payload wFetch 3 [] "phone" (.str "123")
      (by decide) (by decide)).1 rfl (by decide) (by decide)⟩

theorem processWebhook_none_iff (p : Payload) (fr : FetchOutcome) (now : Nat) :
    processWebhook p fr now = none ↔ acceptedType (p.event.bind Event.type) = false := by
  unfold processWebhook
  cases h : acceptedType (p.event.bind Event.type) <;> simp [h]

theorem acceptedType_true_iff (t : Option String) :
    acceptedType t = true ↔
      (t = some "create_pulse" ∨ t = some "change_column_value" ∨
        t = some "update_column_value") := by
  simp [acceptedType, or_assoc]

/-- A payload with an unrecognized event type. -/
def badPayload : Payload :=
  { challenge := none,
    event := some { type := some "unknown_event", data := none, pulseId := some "42",
                    boardId := none, columnId := none, value := none, pulseName := none },
    pulseName := none, pulseId := none, boardId := none, columnValues := none }

/-- An ElevenLabs configuration with both credentials present. -/
def cfgFull : ELConfig :=
  { apiKey := some "k", agentId := some "a", phoneNumberId := some "p" }

/-- An ElevenLabs configuration with no credentials. -/
def cfgNone : ELConfig :=
  { apiKey := none, agentId := none, phoneNumberId := none }

/-- Claim C4: the Normalizer accepts an event exactly when its type token
is one of create_pulse, change_column_value, update_column_value; any other
type yields the null rejection signal (not an error), and for such a
non-challenge request the Relay answers with the 400 invalid-data response
and never invokes the outbound calling provider. -/
theorem c4_event_type_gate (cfg : ELConfig) (p : Payload) (fr : FetchOutcome)
    (api : ApiOutcome) (now : Nat) :
    (processWebhook p fr now = none ↔
      ¬(p.event.bind Event.type = some "create_pulse" ∨
        p.event.bind Event.type = some "change_column_value" ∨
        p.event.bind Event.type = some "update_column_value")) ∧
    (jnorm p.challenge = none → processWebhook p fr now = none →
      (relay cfg p fr api now).status = 400 ∧
      (relay cfg p fr api now).body = .invalidData ∧
      (relay cfg p fr api now).providerCalled = false) := by
  constructor
  · rw [processWebhook_none_iff, ← acceptedType_true_iff]
    cases acceptedType (p.event.bind Event.type) <;> simp
  · intro hch hnone
    simp [relay, hch, hnone]

/-- Witness for C4 at a concrete unrecognized-event payload, with
credentials configured so that providerCalled = false is not vacuous. -/
theorem c4_event_type_gate_witness :
    jnorm badPayload.challenge = none ∧
    processWebhook badPayload wFetch 7 = none ∧
    ((relay cfgFull badPayload wFetch (.ok (some "c1") none none) 7).status = 400 ∧
     (relay cfgFull badPayload wFetch (.ok (some "c1") none none) 7).body = .invalidData ∧
     (relay cfgFull badPayload wFetch (.ok (some "c1") none none) 7).providerCalled = false) :=
  ⟨rfl, by decide,
    (c4_event_type_gate cfgFull badPayload wFetch (.ok (some "c1") none none) 7).2
      rfl (by decide)⟩

/-- Claim C5: whenever the calling-provider credentials are absent,
initiating a call does not propagate an error: it returns the
success-shaped simulated result, flagged as simulated and carrying the
synthetic call identifier, for every lead record. -/
theorem c5_simulation_fallback (cfg : ELConfig) (lead : LeadData)
    (api : ApiOutcome) (now : Nat) (h : credsPresent cfg = false) :
    initiateCall cfg lead api now = .ok (simulateCall lead now) ∧
    (simulateCall lead now).success = true ∧
    (simulateCall lead now).simulation = true ∧
    (simulateCall lead now).call_id = some ("sim_" ++ toString now) := by
  refine ⟨?_, rfl, rfl, rfl⟩
  simp [initiateCall, h]

/-- A concrete lead record with a phone. -/
def wLead : LeadData :=
  { id := "42", name := "Ana", boardId := none, phone := some "+5511999999999",
    email := none, company := none, source := "monday.com", createdAt := 3,
    eventType := some "create_pulse", columnId := none, columnValue := none,
    mcpData := none }

/-- Witness for C5 with no credentials and a failing API outcome. -/
theorem c5_simulation_fallback_witness :
    credsPresent cfgNone = false ∧
    (initiateCall cfgNone wLead (.fail "boom") 3 = .ok (simulateCall wLead 3) ∧
     (simulateCall wLead 3).success = true ∧
     (simulateCall wLead 3).simulation = true ∧
     (simulateCall wLead 3).call_id = some ("sim_" ++ toString 3)) :=
  ⟨rfl, c5_simulation_fallback cfgNone wLead (.fail "boom") 3 rfl⟩

/-- Claim C6: for a recognized event from which no phone is resolvable
(no truthy phone-matching webhook column, and no phone from the fetch),
the Normalizer still returns a record, with phone absent, and the Relay
responds 200 with the ignored-no-phone message and does not invoke the
outbound calling provider. -/
theorem c6_no_phone_ignored (cfg : ELConfig) (p : Payload) (fr : FetchOutcome)
    (api : ApiOutcome) (now : Nat)
    (hch : jnorm p.challenge = none)
    (h : acceptedType (p.event.bind Event.type) = true)
    (hcols : lastApp phoneApp (colsOf p) = none)
    (hfetch : jnorm ((fetchItemDetails fr).bind ItemData.phone) = none) :
    (∃ r, processWebhook p fr now = some r ∧ r.phone = none) ∧
    (relay cfg p fr api now).status = 200 ∧
    (relay cfg p fr api now).body = .noPhone ∧
    (relay cfg p fr api now).providerCalled = false := by
  have hphone : ((colsOf p).foldl applyColumn (seedLead p fr now)).phone = none := by
    rw [foldl_applyColumn_phone, hcols, Option.getD_none, seedLead_phone, hfetch]
  refine ⟨⟨_, processWebhook_accepted p fr now h, hphone⟩, ?_⟩
  have hjn : jnorm (((colsOf p).foldl applyColumn (seedLead p fr now)).phone) = none := by
    rw [hphone]
    rfl
  simp [relay, hch, processWebhook_accepted p fr now h, hjn]

/-- An accepted payload whose only webhook column is an email column. -/
def c6Payload : Payload :=
  { challenge := none, event := some wEvent, pulseName := none, pulseId := none,
    boardId := none, columnValues := some [("email", .str "a@b.com")] }

/-- Witness for C6: accepted event, no phone anywhere, credentials
configured; relay ignores with 200 and no provider call. -/
theorem c6_no_phone_ignored_witness :
    jnorm c6Payload.challenge = none ∧
    acceptedType (c6Payload.event.bind Event.type) = true ∧
    lastApp phoneApp (colsOf c6Payload) = none ∧
    jnorm ((fetchItemDetails (.ok [])).bind ItemData.phone) = none ∧
    ((∃ r, processWebhook c6Payload (.ok []) 7 = some r ∧ r.phone = none) ∧
     (relay cfgFull c6Payload (.ok []) (.ok (some "c1") none none) 7).status = 200 ∧
     (relay cfgFull c6Payload (.ok []) (.ok (some "c1") none none) 7).body = .noPhone ∧
     (relay cfgFull c6Payload (.ok []) (.ok (some "c1") none none) 7).providerCalled
       = false) :=
  ⟨rfl, by decide, by decide, rfl,
    c6_no_phone_ignored cfgFull c6Payload (.ok []) (.ok (some "c1") none none) 7
      rfl (by decide) (by decide) rfl⟩

/-- The first JS-truthy candidate in a list, with a default: the spec's
"first non-empty of" selection. -/
def firstNonEmpty : List CVal → CVal → CVal
  | [], dflt => dflt
  | c :: rest, dflt => if cvalTruthy c then c else firstNonEmpty rest dflt

/-- Claim C7: the Call Request Builder sets customer_name to the record's
name with default "Customer" when it is empty, and company_name to the
first non-empty among the fetched CRM column under the well-known
lead_company key, the record's company field, and the fixed fallback
string. -/
theorem c7_call_variables (cfg : ELConfig) (lead : LeadData) :
    (prepareCallData cfg lead).dynamic_variables.customer_name
      = (if lead.name = "" then "Customer" else lead.name) ∧
    (prepareCallData cfg lead).dynamic_variables.company_name
      = firstNonEmpty (((mcpLeadCompany lead).map CVal.s).toList ++ lead.company.toList)
          (CVal.s "your restaurant") := by
  constructor
  · unfold prepareCallData strOr
    by_cases hn : lead.name = "" <;> simp [hn]
  · unfold prepareCallData
    cases hm : mcpLeadCompany lead with
    | some s =>
      by_cases hs : s = ""
      · subst hs
        cases hc : lead.company <;>
          simp [jnorm, optTruthy, firstNonEmpty, cvalTruthy]
      · simp [jnorm, optTruthy, hs, firstNonEmpty, cvalTruthy]
    | none =>
      cases hc : lead.company <;>
        simp [jnorm, optTruthy, firstNonEmpty]

/-- Claim C10: `processWebhook` is total: every internal failure is
converted into a record or the null signal: a failing CRM fetch behaves
exactly like an empty fetch result; and for any non-challenge request the
Relay's 400 client-error response occurs exactly when the Normalizer
returned null. -/
theorem c10_null_handling (cfg : ELConfig) (p : Payload) (api : ApiOutcome) (now : Nat) :
    (processWebhook p .apiError now = processWebhook p (.ok []) now) ∧
    (∀ fr, jnorm p.challenge = none →
      ((relay cfg p fr api now).status = 400 ↔ processWebhook p fr now = none)) := by
  refine ⟨rfl, ?_⟩
  intro fr hch
  cases hw : processWebhook p fr now with
  | none => simp [relay, hch, hw]
  | some lead =>
    cases hp : jnorm lead.phone with
    | none => simp [relay, hch, hw, hp]
    | some s =>
      cases hcall : initiateCall cfg lead api now <;> simp [relay, hch, hw, hp, hcall]

/-- Witness for C10 at a concrete unrecognized-event payload. -/
theorem c10_null_handling_witness :
    jnorm badPayload.challenge = none ∧
    ((relay cfgFull badPayload wFetch (.fail "boom") 7).status = 400 ↔
      processWebhook badPayload wFetch 7 = none) :=
  ⟨rfl, (c10_null_handling cfgFull badPayload (.fail "boom") 7).2 wFetch rfl⟩

/-- The strip rule exactly as claim C3 words it: remove every character
except digits and a LEADING plus sign. -/
def stripClaim (s : String) : String :=
  (if startsWithList ['+'] s.data then "+" else "") ++ ⟨s.data.filter Char.isDigit⟩

/-- Phone normalization exactly as claim C3 words it: coerce, strip all but
digits and a leading plus, prepend the fixed +55 exactly when the stripped
result has exactly 10 or 11 digits and no leading plus, and accept only
results of length at least 10. -/
def specNormalizePhoneClaim (v : ColumnValue) : Option String :=
  let s := stripClaim (coerceToString v)
  let digits := (s.data.filter Char.isDigit).length
  let s := if (digits == 10 || digits == 11) && !(startsWithList ['+'] s.data)
    then "+55" ++ s else s
  if 10 ≤ s.length then some s else none

/-- Claim C3 counterexample: on inputs with a plus sign in the middle, the
code keeps every plus sign (the regex `[^\d+]` is not anchored to a leading
position) and compares the total stripped length with 10/11 rather than
the digit count, so `extractPhone` disagrees with the claim's description
at "1+234567890" and at "1234567890+1". -/
theorem c3_phone_normalization_counterexample :
    extractPhone (.str "1+234567890") = some "+551+234567890" ∧
    specNormalizePhoneClaim (.str "1+234567890") = some "+551234567890" ∧
    extractPhone (.str "1+234567890") ≠ specNormalizePhoneClaim (.str "1+234567890") ∧
    extractPhone (.str "1234567890+1") = some "1234567890+1" ∧
    specNormalizePhoneClaim (.str "1234567890+1") = some "+5512345678901" ∧
    extractPhone (.str "1234567890+1") ≠ specNormalizePhoneClaim (.str "1234567890+1") := by
  decide

/-- Phone normalization as amended: strip everything except digits and
plus signs (wherever they occur), prepend +55 exactly when the stripped
string's total length is 10 or 11 and it does not start with a plus, and
accept only results of length at least 10. -/
def specNormalizePhoneAmended (v : ColumnValue) : Option String :=
  let s : String := ⟨(coerceToString v).data.filter (fun c => c.isDigit || c == '+')⟩
  let s := if (s.length == 10 || s.length == 11) && !(startsWithList ['+'] s.data)
    then "+55" ++ s else s
  if 10 ≤ s.length then some s else none

theorem phoneFinish_eq (s : String) :
    (let p := if s.length == 11 && !(startsWithList ['+'] s.data) then "+55" ++ s
              else if s.length == 10 && !(startsWithList ['+'] s.data) then "+55" ++ s
              else s
     if 10 ≤ p.length then some p else none)
    = (let q := if (s.length == 10 || s.length == 11) && !(startsWithList ['+'] s.data)
                then "+55" ++ s else s
       if 10 ≤ q.length then some q else none) := by
  by_cases h11 : s.length = 11 <;> by_cases h10 : s.length = 10 <;>
    by_cases hp : startsWithList ['+'] s.data = true <;>
      simp [h11, h10, hp]

/-- Claim C3 (amended): `extractPhone` coerces the value to a string
(text, then value, then the raw string), keeps digits and every plus sign,
prepends +55 exactly when the stripped string's total length is 10 or 11
and it has no leading plus, and accepts only results of length at least
10; the claim's two concrete examples hold as stated. -/
theorem c3_phone_normalization_amended (v : ColumnValue) :
    extractPhone v = specNormalizePhoneAmended v ∧
    extractPhone (.str "11999999999") = some "+5511999999999" ∧
    extractPhone (.str "999999999") = none := by
  refine ⟨?_, by decide, by decide⟩
  exact phoneFinish_eq (stripPhone (coerceToString v))

/-! Equivalence of the email regex test with the spec's wording. -/

theorem takeWhile_app (p : Char → Bool) (l : List Char) (a : Char) (r : List Char)
    (hl : ∀ c ∈ l, p c = true) (ha : p a = false) :
    (l ++ a :: r).takeWhile p = l ∧ (l ++ a :: r).dropWhile p = a :: r := by
  induction l with
  | nil => simp [List.takeWhile_cons, List.dropWhile_cons, ha]
  | cons x xs ih =>
    have hx : p x = true := hl x (by simp)
    have hxs : ∀ c ∈ xs, p c = true := fun c hc => hl c (by simp [hc])
    obtain ⟨h1, h2⟩ := ih hxs
    simp [List.takeWhile_cons, List.dropWhile_cons, hx, h1, h2]

theorem dropWhile_head_false (p : Char → Bool) :
    ∀ (cs : List Char) (a : Char) (r : List Char), cs.dropWhile p = a :: r → p a = false := by
  intro cs
  induction cs with
  | nil => intro a r h; simp [List.dropWhile] at h
  | cons x xs ih =>
    intro a r h
    rw [List.dropWhile_cons] at h
    by_cases hx : p x = true
    · rw [if_pos hx] at h
      exact ih a r h
    · rw [if_neg hx] at h
      cases h
      cases hpx : p x
      · rfl
      · exact absurd hpx hx

theorem hasDotNotLast_iff (t : List Char) :
    hasDotNotLast t = true ↔ ∃ a b, t = a ++ '.' :: b ∧ b ≠ [] := by
  induction t with
  | nil =>
    constructor
    · intro h; simp [hasDotNotLast] at h
    · rintro ⟨a, b, h, hb⟩
      exact absurd h.symm (by simp)
  | cons c rest ih =>
    cases rest with
    | nil =>
      constructor
      · intro h; simp [hasDotNotLast] at h
      · rintro ⟨a, b, h, hb⟩
        have hlen := congrArg List.length h
        have hbl : 0 < b.length := List.length_pos.mpr hb
        simp [List.length_append] at hlen
        omega
    | cons x xs =>
      rw [hasDotNotLast, Bool.or_eq_true]
      constructor
      · intro h
        rcases h with hc | hrest
        · exact ⟨[], x :: xs, by simp [(beq_iff_eq.mp hc)], by simp⟩
        · obtain ⟨a, b, hx, hb⟩ := ih.mp hrest
          exact ⟨c :: a, b, by simp [hx], hb⟩
      · rintro ⟨a, b, h, hb⟩
        cases a with
        | nil =>
          simp only [List.nil_append] at h
          injection h with h1 h2
          left
          simp [h1]
        | cons a0 as =>
          injection h with h1 h2
          right
          exact ih.mpr ⟨as, b, h2, hb⟩

theorem dotSplit_iff (r : List Char) :
    dotSplit r = true ↔ ∃ d t, r = d ++ '.' :: t ∧ d ≠ [] ∧ t ≠ [] := by
  cases r with
  | nil =>
    simp only [dotSplit]
    constructor
    · intro h; exact absurd h (by simp)
    · rintro ⟨d, t, h, hd, ht⟩
      exact absurd h.symm (by simp)
  | cons a rest =>
    rw [dotSplit, hasDotNotLast_iff]
    constructor
    · rintro ⟨x, b, hx, hb⟩
      exact ⟨a :: x, b, by simp [hx], by simp, hb⟩
    · rintro ⟨d, t, h, hd, ht⟩
      cases d with
      | nil => exact absurd rfl hd
      | cons d0 ds =>
        injection h with h1 h2
        exact ⟨ds, t, h2, ht⟩

/-- Acceptance exactly as claim C8 words it: the string splits as
local@domain.tld: a nonempty local part, exactly one at sign, a dot after
the at sign with nonempty parts on each side, and no embedded whitespace
anywhere. -/
def SpecEmailAccept (s : String) : Prop :=
  ∃ l d t : List Char,
    s.data = l ++ '@' :: (d ++ '.' :: t) ∧ l ≠ [] ∧ d ≠ [] ∧ t ≠ [] ∧
    (∀ c ∈ s.data, isJsWs c = false) ∧
    s.data.countP (fun c => c == '@') = 1

theorem emailRegexTest_iff (s : String) :
    emailRegexTest s = true ↔ SpecEmailAccept s := by
  unfold emailRegexTest SpecEmailAccept
  constructor
  · intro h
    cases hd : s.data.dropWhile (fun c => !(c == '@')) with
    | nil => rw [hd] at h; simp at h
    | cons a r =>
      rw [hd] at h
      simp only [Bool.and_eq_true, Bool.not_eq_true'] at h
      obtain ⟨⟨⟨hl, hall1⟩, hall2⟩, hds⟩ := h
      have ha : (!(a == '@')) = false := dropWhile_head_false _ s.data a r hd
      have ha2 : a = '@' := by
        cases hae : a == '@'
        · rw [hae] at ha; simp at ha
        · exact beq_iff_eq.mp hae
      have hsplit : s.data = s.data.takeWhile (fun c => !(c == '@')) ++ a :: r := by
        conv_lhs => rw [← List.takeWhile_append_dropWhile
          (p := fun c => !(c == '@')) (l := s.data)]
        rw [hd]
      obtain ⟨d, t, hr, hdne, htne⟩ := (dotSplit_iff r).mp hds
      refine ⟨s.data.takeWhile (fun c => !(c == '@')), d, t, ?_, ?_, hdne, htne, ?_, ?_⟩
      · conv_lhs => rw [hsplit]
        rw [ha2, hr]
      · intro hnil
        rw [hnil] at hl
        simp at hl
      · intro c hc
        rw [hsplit] at hc
        rcases List.mem_append.mp hc with hcl | hcr
        · have hok := (List.all_eq_true.mp hall1) c hcl
          simp only [okChar, Bool.and_eq_true, Bool.not_eq_true'] at hok
          exact hok.1
        · rcases List.mem_cons.mp hcr with hca | hcr2
          · rw [hca, ha2]; decide
          · have hok := (List.all_eq_true.mp hall2) c hcr2
            simp only [okChar, Bool.and_eq_true, Bool.not_eq_true'] at hok
            exact hok.1
      · rw [hsplit, ha2, List.countP_append, List.countP_cons]
        have hl0 : (s.data.takeWhile fun c => !(c == '@')).countP (fun c => c == '@') = 0 := by
          apply List.countP_eq_zero.mpr
          intro x hx
          have hpx := List.mem_takeWhile_imp hx
          simp only [Bool.not_eq_true'] at hpx
          simp [hpx]
        have hr0 : r.countP (fun c => c == '@') = 0 := by
          apply List.countP_eq_zero.mpr
          intro x hx
          have hok := (List.all_eq_true.mp hall2) x hx
          simp only [okChar, Bool.and_eq_true, Bool.not_eq_true'] at hok
          simp [hok.2]
        rw [hl0, hr0]
        decide
  · rintro ⟨l, d, t, hsd, hl, hd, ht, hws, hcount⟩
    have hcl : l.countP (fun c => c == '@') = 0 ∧
        (d ++ '.' :: t).countP (fun c => c == '@') = 0 := by
      rw [hsd, List.countP_append, List.countP_cons] at hcount
      have : (if ('@' == '@' : Bool) = true then 1 else 0) = 1 := by decide
      rw [this] at hcount
      omega
    have hlnot : ∀ c ∈ l, (c == '@') = false := by
      intro c hc
      have := List.countP_eq_zero.mp hcl.1 c hc
      cases hcc : c == '@'
      · rfl
      · exact absurd hcc this
    have hrnot : ∀ c ∈ (d ++ '.' :: t), (c == '@') = false := by
      intro c hc
      have := List.countP_eq_zero.mp hcl.2 c hc
      cases hcc : c == '@'
      · rfl
      · exact absurd hcc this
    have hlp : ∀ c ∈ l, (fun c => !(c == '@')) c = true := by
      intro c hc
      simp [hlnot c hc]
    obtain ⟨htw, hdw⟩ := takeWhile_app (fun c => !(c == '@')) l '@' (d ++ '.' :: t)
      hlp (by simp)
    rw [hsd, hdw, htw]
    simp only [Bool.and_eq_true]
    refine ⟨⟨⟨?_, ?_⟩, ?_⟩, ?_⟩
    · cases hle : l == []
      · simp
      · exact absurd (beq_iff_eq.mp hle) hl
    · apply List.all_eq_true.mpr
      intro c hc
      unfold okChar
      have hw : isJsWs c = false := hws c (by rw [hsd]; exact List.mem_append.mpr (.inl hc))
      simp [hw, hlnot c hc]
    · apply List.all_eq_true.mpr
      intro c hc
      unfold okChar
      have hw : isJsWs c = false := hws c (by
        rw [hsd]
        exact List.mem_append.mpr (.inr (List.mem_cons.mpr (.inr hc))))
      simp [hw, hrnot c hc]
    · exact (dotSplit_iff _).mpr ⟨d, t, rfl, hd, ht⟩

/-- Claim C8: email validation coerces the input to a string and accepts
it exactly when it has the shape local@domain.tld: nonempty local part,
exactly one at sign, no embedded whitespace, and a dot with nonempty parts
on both sides after the at sign; otherwise the result is absent.  The
claim's two concrete examples hold. -/
theorem c8_email_validation (v : ColumnValue) :
    (extractEmail v = some (coerceToString v) ↔ SpecEmailAccept (coerceToString v)) ∧
    (extractEmail v = some (coerceToString v) ∨ extractEmail v = none) ∧
    extractEmail (.str "a@b.com") = some "a@b.com" ∧
    extractEmail (.str "not-an-email") = none := by
  refine ⟨?_, ?_, by decide, by decide⟩
  · rw [← emailRegexTest_iff]
    unfold extractEmail
    cases h : emailRegexTest (coerceToString v) <;> simp [h]
  · unfold extractEmail
    cases h : emailRegexTest (coerceToString v) <;> simp [h]

end MondayEleven
